/-
Verification of the core logic of a personality-insights web backend
(src/app.js): the tree flattener (parseChildren and its annotation pass),
the subtree locator (getChildWithId) and the chart data construction
(createChartData), shallowly embedded in Lean.

Modelling conventions: JS numbers are modelled as rationals; a JS field that
may be undefined is an Option; a thrown JS exception is Except.error;
Number.toFixed(2) is modelled as exact decimal rounding (half away from
zero on the nonnegative inputs that occur here).
-/
import Mathlib

namespace Watson

/-- ProfileNode: one node of the externally supplied trait tree, with the
JSON shape read by app.js: id, name, optional percentage, optional ordered
children list. -/
inductive ProfileNode : Type where
  | mk : String → String → Option ℚ → Option (List ProfileNode) → ProfileNode

/-- Accessor for the id field of a ProfileNode. -/
def ProfileNode.id : ProfileNode → String
  | .mk i _ _ _ => i

/-- Accessor for the name field of a ProfileNode. -/
def ProfileNode.name : ProfileNode → String
  | .mk _ n _ _ => n

/-- Accessor for the percentage field of a ProfileNode. -/
def ProfileNode.percentage : ProfileNode → Option ℚ
  | .mk _ _ p _ => p

/-- Accessor for the children field of a ProfileNode. -/
def ProfileNode.children : ProfileNode → Option (List ProfileNode)
  | .mk _ _ _ c => c

instance : Inhabited ProfileNode := ⟨ProfileNode.mk "" "" none none⟩

/-- DisplayChild: the object built by createChildFromJSON in app.js, before
the forEach annotation pass of parseDescriptionFromWatsonResponse. Field
names follow the source. -/
structure DisplayChild where
  id : String
  name : String
  value : Option String
  type : String
  hasChildren : String
  graphURL : Option String
  deriving DecidableEq, Repr

/-- DisplayItem: a DisplayChild after the forEach pass of
parseDescriptionFromWatsonResponse has added showGraph, isHeader,
isSubheader and isLeaf and rewritten graphURL. -/
structure DisplayItem where
  id : String
  name : String
  value : Option String
  type : String
  hasChildren : String
  graphURL : Option String
  showGraph : String
  isHeader : Bool
  isSubheader : Bool
  isLeaf : Bool
  deriving DecidableEq, Repr

/-- ChartSlice: one element of the data array built by createChartData. -/
structure ChartSlice where
  value : String
  color : String
  highlight : String
  label : String
  deriving DecidableEq, Repr

/-- The idsWithGraphs allow-list of app.js. -/
def idsWithGraphs : List String :=
  ["personality", "Openness", "Conscientiousness", "Extraversion",
   "Agreeableness", "Neuroticism", "needs", "values"]

/-- The colors palette of app.js. -/
def colors : List String :=
  ["#4178BD", "#9854D4", "#01B4A0", "#D74009", "#323232", "#EDC01C"]

/-- The highlights palette of app.js. -/
def highlights : List String :=
  ["#5596E6", "#AF6EE8", "#41D6C3", "#FF5006", "#555555", "#FAE249"]

/-- Two-digit zero-padded rendering of a number below 100, used for the
fractional part of a fixed-point decimal string. -/
def pad2 (n : ℕ) : String :=
  if n < 10 then "0" ++ toString n else toString n

/-- Render a quantity of hundredths as a decimal string with exactly two
fractional digits. -/
def hundredthsToString (m : ℕ) : String :=
  toString (m / 100) ++ "." ++ pad2 (m % 100)

/-- Model of the JS expression x.toFixed(2) for the nonnegative numbers that
occur in app.js: round to the nearest hundredth, half away from zero, and
render with exactly two fractional digits. -/
def toFixed2 (q : ℚ) : String :=
  hundredthsToString (Int.toNat ⌊q * 100 + 1 / 2⌋)

/-- formatPercentage of app.js. The JS guard is the truthiness test
if (percentage), which rejects both an undefined percentage and the
number 0; otherwise it returns (percentage * 100).toFixed(2) + a percent
sign. -/
def formatPercentage : Option ℚ → Option String
  | none => none
  | some p => if p = 0 then none else some (toFixed2 (p * 100) ++ "%")

/-- createChildFromJSON of app.js, with the module global appEnv.url passed
in as baseURL. The hasChildren field tests presence of the children field
(also true for a present empty list); graphURL is set only for ids on the
idsWithGraphs allow-list. -/
def createChildFromJSON (baseURL : String) (json : ProfileNode)
    (nestLevel : ℕ) : DisplayChild :=
  { id := json.id
    name := json.name
    value := formatPercentage json.percentage
    type := toString (nestLevel + 1)
    hasChildren := if json.children.isSome then "true" else "false"
    graphURL :=
      if json.id ∈ idsWithGraphs
      then some (baseURL ++ "/getGraph/" ++ json.id)
      else none }

/-- parseChildren of app.js: pre-order flattening of an optional children
list, emitting each node and then, recursively, its descendants before its
next sibling. The none and some-list patterns mirror the JS guard
if (itemRoot and Array.isArray(itemRoot)); the children field of each node
is split into its none and some cases so the recursion is visibly
decreasing. -/
def parseChildren (baseURL : String) :
    Option (List ProfileNode) → ℕ → List DisplayChild
  | none, _ => []
  | some [], _ => []
  | some (ProfileNode.mk i nm pc none :: rest), lvl =>
      createChildFromJSON baseURL (ProfileNode.mk i nm pc none) lvl
        :: (parseChildren baseURL none (lvl + 1)
            ++ parseChildren baseURL (some rest) lvl)
  | some (ProfileNode.mk i nm pc (some l) :: rest), lvl =>
      createChildFromJSON baseURL (ProfileNode.mk i nm pc (some l)) lvl
        :: (parseChildren baseURL (some l) (lvl + 1)
            ++ parseChildren baseURL (some rest) lvl)

/-- isHeader of app.js. -/
def isHeader (item : DisplayChild) : Bool :=
  item.type == "1"

/-- isSubheader of app.js. -/
def isSubheader (item : DisplayChild) : Bool :=
  item.type == "3" && item.hasChildren == "true"

/-- isLeaf of app.js. -/
def isLeaf (item : DisplayChild) : Bool :=
  item.hasChildren == "false" && (item.type == "3" || item.type == "4")

/-- The forEach body of parseDescriptionFromWatsonResponse in app.js: when
the graphURL string is truthy (present and nonempty) it is extended with
the literal /?sessionId= and the session id and showGraph becomes the
string true, otherwise showGraph becomes the string false; then the three
classification flags are computed. -/
def annotateItem (sessionID : String) (item : DisplayChild) : DisplayItem :=
  let hasURL : Bool :=
    match item.graphURL with
    | some s => s != ""
    | none => false
  { id := item.id
    name := item.name
    value := item.value
    type := item.type
    hasChildren := item.hasChildren
    graphURL :=
      if hasURL
      then item.graphURL.map (fun s => s ++ "/?sessionId=" ++ sessionID)
      else item.graphURL
    showGraph := if hasURL then "true" else "false"
    isHeader := isHeader item
    isSubheader := isSubheader item
    isLeaf := isLeaf item }

/-- parseDescriptionFromWatsonResponse of app.js, with the top-level
children list of the stored tree passed in directly: flatten with
parseChildren at nest level 0, drop the items whose type is the string 2,
then run the annotation pass on each surviving item. -/
def parseDescriptionFromWatsonResponse (baseURL sessionID : String)
    (treeChildren : Option (List ProfileNode)) : List DisplayItem :=
  ((parseChildren baseURL treeChildren 0).filter
      (fun item => item.type != "2")).map (annotateItem sessionID)

/-- The return value of getChildWithId at a direct id match: the single
child when the children field holds exactly one element (the JS test
child.children and child.children.length === 1, where an empty array is
truthy but has the wrong length), else the matched node itself. -/
def matchedChild (i nm : String) (pc : Option ℚ)
    (cs : Option (List ProfileNode)) : Option ProfileNode :=
  match cs with
  | some [only] => some only
  | _ => some (ProfileNode.mk i nm pc cs)

/-- getChildWithId of app.js: depth-first pre-order search for the first
node whose id equals the target; a direct match with exactly one child is
unwrapped to that child; an absent or exhausted list yields none. -/
def getChildWithId (target : String) :
    Option (List ProfileNode) → Option ProfileNode
  | none => none
  | some [] => none
  | some (ProfileNode.mk i nm pc cs :: rest) =>
      if i = target then
        matchedChild i nm pc cs
      else
        match getChildWithId target cs with
        | some found => some found
        | none => getChildWithId target (some rest)

/-- The body of the for loop of createChartData in app.js, for the child at
index i: the value is (percentage * 100).toFixed(2), where an absent
percentage propagates as NaN exactly as undefined times 100 does in JS,
and color and highlight are taken from the fixed palettes at the index
modulo the palette length. -/
def chartSliceAt (child : ProfileNode) (i : ℕ) : ChartSlice :=
  { value :=
      match child.percentage with
      | some p => toFixed2 (p * 100)
      | none => "NaN"
    color := colors.getD (i % colors.length) ""
    highlight := highlights.getD (i % highlights.length) ""
    label := child.name }

/-- The for loop of createChartData in app.js, started at index i. -/
def chartSlicesFrom : List ProfileNode → ℕ → List ChartSlice
  | [], _ => []
  | c :: rest, i => chartSliceAt c i :: chartSlicesFrom rest (i + 1)

/-- createChartData of app.js. The source reads children.length without a
guard, so a node whose children field is absent makes the JS code throw a
TypeError, modelled here as Except.error; with children present the loop
builds one slice per child in order. -/
def createChartData (rootJSON : ProfileNode) : Except String (List ChartSlice) :=
  match rootJSON.children with
  | none => Except.error "TypeError: children is undefined"
  | some children => Except.ok (chartSlicesFrom children 0)

/-- Modelled from the spec: pre-order traversal of a forest pairing each
node with its 0-based depth, each node listed before all of its
descendants and a whole subtree listed before the next sibling. -/
def preorderWithDepth : List ProfileNode → ℕ → List (ProfileNode × ℕ)
  | [], _ => []
  | ProfileNode.mk i nm pc none :: rest, d =>
      (ProfileNode.mk i nm pc none, d) :: preorderWithDepth rest d
  | ProfileNode.mk i nm pc (some l) :: rest, d =>
      (ProfileNode.mk i nm pc (some l), d)
        :: (preorderWithDepth l (d + 1) ++ preorderWithDepth rest d)

/-- Modelled from the spec: the nodes of a forest in depth-first pre-order,
the order in which the locator is specified to search. -/
def preorderNodes : List ProfileNode → List ProfileNode
  | [] => []
  | ProfileNode.mk i nm pc none :: rest =>
      ProfileNode.mk i nm pc none :: preorderNodes rest
  | ProfileNode.mk i nm pc (some l) :: rest =>
      ProfileNode.mk i nm pc (some l)
        :: (preorderNodes l ++ preorderNodes rest)

/-- Modelled from the spec: the unwrapping rule of the subtree locator, by
which a matched node with exactly one child stands for that child. -/
def unwrapSingle (n : ProfileNode) : ProfileNode :=
  match n.children with
  | some [only] => only
  | _ => n

/-- Modelled from the spec: the percentage times 100, rounded to exactly two
decimal digits, suffixed with a percent sign. -/
def specPercentValue (p : ℚ) : String :=
  hundredthsToString (Int.toNat ⌊p * 10000 + 1 / 2⌋) ++ "%"

/-- A default chart slice used only as the fallback of List.getD. -/
def defaultSlice : ChartSlice :=
  { value := "", color := "", highlight := "", label := "" }

/-- A single leaf node used as a concrete input. -/
def sampleLeafA : ProfileNode :=
  ProfileNode.mk "a" "A" none none

/-- A three-level chain p, q, r used as a concrete input: p sits at depth
tag 1, q at depth tag 2 and r at depth tag 3. -/
def sampleTree1 : Option (List ProfileNode) :=
  some [ProfileNode.mk "p" "P" none
          (some [ProfileNode.mk "q" "Q" none
                   (some [ProfileNode.mk "r" "R" none none])])]

/-- The display child the flattener builds for node r of sampleTree1. -/
def sampleChildR : DisplayChild :=
  createChildFromJSON "http://base" (ProfileNode.mk "r" "R" none none) 2

/-- The display item the pipeline emits for sampleLeafA at the top level. -/
def sampleItemA : DisplayItem :=
  annotateItem "sess1" (createChildFromJSON "http://base" sampleLeafA 0)

/-- Eight percentage-free children used as a concrete chart input. -/
def sampleChartChildren : List ProfileNode :=
  [ProfileNode.mk "c0" "C0" none none, ProfileNode.mk "c1" "C1" none none,
   ProfileNode.mk "c2" "C2" none none, ProfileNode.mk "c3" "C3" none none,
   ProfileNode.mk "c4" "C4" none none, ProfileNode.mk "c5" "C5" none none,
   ProfileNode.mk "c6" "C6" none none, ProfileNode.mk "c7" "C7" none none]

/-- A chartable node with eight children. -/
def sampleChartNode : ProfileNode :=
  ProfileNode.mk "personality" "personality" none (some sampleChartChildren)

/-- A node whose id is on the idsWithGraphs allow-list. -/
def sampleOpenNode : ProfileNode :=
  ProfileNode.mk "Openness" "Openness" none none

/-- Strong induction principle for forests of ProfileNode, descending both
into the optional children list of the head node and into the tail. -/
theorem forest_induction (P : List ProfileNode → Prop)
    (hnil : P [])
    (hcons : ∀ (i nm : String) (pc : Option ℚ) (cs : Option (List ProfileNode))
        (rest : List ProfileNode),
        (∀ l, cs = some l → P l) → P rest →
        P (ProfileNode.mk i nm pc cs :: rest)) :
    ∀ l, P l := by
  have H : ∀ (k : ℕ) (l : List ProfileNode), sizeOf l ≤ k → P l := by
    intro k
    induction k with
    | zero =>
      intro l hl
      cases l with
      | nil => exact hnil
      | cons a rest =>
        exfalso
        cases a with
        | mk i nm pc cs =>
          simp at hl
    | succ k ih =>
      intro l hl
      cases l with
      | nil => exact hnil
      | cons a rest =>
        cases a with
        | mk i nm pc cs =>
          apply hcons
          · intro l' hcs
            apply ih
            subst hcs
            simp at hl
            omega
          · apply ih
            simp at hl
            omega
  intro l
  exact H (sizeOf l) l le_rfl

/-- The flattener output is the map of createChildFromJSON over the
pre-order node-and-depth traversal of the same forest. -/
theorem parseChildren_eq_preorder (b : String) (l : List ProfileNode) :
    ∀ d, parseChildren b (some l) d
      = (preorderWithDepth l d).map (fun p => createChildFromJSON b p.1 p.2) := by
  induction l using forest_induction with
  | hnil =>
    intro d
    simp [parseChildren, preorderWithDepth]
  | hcons i nm pc cs rest ihcs ihrest =>
    intro d
    cases cs with
    | none =>
      simp [parseChildren, preorderWithDepth, ihrest d]
    | some l' =>
      simp [parseChildren, preorderWithDepth, ihcs l' rfl, ihrest d]

/-- matchedChild is the unwrapping rule applied to the matched node. -/
theorem matchedChild_eq_unwrap (i nm : String) (pc : Option ℚ)
    (cs : Option (List ProfileNode)) :
    matchedChild i nm pc cs = some (unwrapSingle (ProfileNode.mk i nm pc cs)) := by
  cases cs with
  | none => rfl
  | some l =>
    match l with
    | [] => rfl
    | [only] => rfl
    | c₁ :: c₂ :: cl => rfl

/-- The locator search equals the first pre-order match, unwrapped. -/
theorem getChildWithId_eq_find (target : String) (l : List ProfileNode) :
    getChildWithId target (some l)
      = ((preorderNodes l).find? (fun n => n.id == target)).map unwrapSingle := by
  induction l using forest_induction with
  | hnil =>
    simp [getChildWithId, preorderNodes]
  | hcons i nm pc cs rest ihcs ihrest =>
    by_cases hid : i = target
    · subst hid
      cases cs with
      | none =>
        simp only [getChildWithId, preorderNodes]
        rw [if_true, List.find?_cons_of_pos _ (by simp [ProfileNode.id]),
          matchedChild_eq_unwrap]
        simp
      | some l' =>
        simp only [getChildWithId, preorderNodes]
        rw [if_true, List.find?_cons_of_pos _ (by simp [ProfileNode.id]),
          matchedChild_eq_unwrap]
        simp
    · cases cs with
      | none =>
        have hL : getChildWithId target (some (ProfileNode.mk i nm pc none :: rest))
            = getChildWithId target (some rest) := by
          simp only [getChildWithId]
          rw [if_neg hid]
        have hR : (preorderNodes (ProfileNode.mk i nm pc none :: rest)).find?
              (fun n => n.id == target)
            = (preorderNodes rest).find? (fun n => n.id == target) := by
          simp only [preorderNodes]
          exact List.find?_cons_of_neg _ (by simp [ProfileNode.id, hid])
        rw [hL, hR, ihrest]
      | some l' =>
        have ihl' := ihcs l' rfl
        have hL : getChildWithId target (some (ProfileNode.mk i nm pc (some l') :: rest))
            = match getChildWithId target (some l') with
              | some found => some found
              | none => getChildWithId target (some rest) := by
          simp only [getChildWithId]
          rw [if_neg hid]
        have hR : (preorderNodes (ProfileNode.mk i nm pc (some l') :: rest)).find?
              (fun n => n.id == target)
            = ((preorderNodes l').find? (fun n => n.id == target)).or
                ((preorderNodes rest).find? (fun n => n.id == target)) := by
          simp only [preorderNodes]
          rw [List.find?_cons_of_neg _ (by simp [ProfileNode.id, hid]),
            List.find?_append]
        rw [hL, hR, ihl']
        cases hfind : (preorderNodes l').find? (fun n => n.id == target) with
        | none => simp [ihrest]
        | some f => simp

/-- The number of chart slices equals the number of children. -/
theorem chartSlicesFrom_length (l : List ProfileNode) (st : ℕ) :
    (chartSlicesFrom l st).length = l.length := by
  induction l generalizing st with
  | nil => rfl
  | cons c rest ih => simp [chartSlicesFrom, ih]

/-- The slice at position k of the loop started at st is the slice of the
k-th child at loop index st plus k. -/
theorem chartSlicesFrom_getD (l : List ProfileNode) (st k : ℕ)
    (hk : k < l.length) :
    (chartSlicesFrom l st).getD k defaultSlice
      = chartSliceAt (l.getD k default) (st + k) := by
  induction l generalizing st k with
  | nil => simp at hk
  | cons c rest ih =>
    cases k with
    | zero => simp [chartSlicesFrom]
    | succ k' =>
      simp only [chartSlicesFrom, List.getD_cons_succ]
      rw [ih (st + 1) k' (by simpa using hk)]
      congr 1
      omega

/-- C9: the flattener emits nodes in pre-order, each node before all of its
descendants and a whole subtree before the next sibling, and each emitted
item carries as its type tag the 1-based nesting level of its node, the
top-level children getting tag 1; the root itself is never emitted since
the traversal starts at the top-level children list. -/
theorem preorderEmission (b : String) (forest : List ProfileNode) :
    parseChildren b (some forest) 0
      = (preorderWithDepth forest 0).map (fun p => createChildFromJSON b p.1 p.2)
    ∧ ∀ (n : ProfileNode) (lvl : ℕ),
        (createChildFromJSON b n lvl).type = toString (lvl + 1) :=
  ⟨parseChildren_eq_preorder b forest 0, fun _ _ => rfl⟩

/-- C4: the locator returns the first node in depth-first pre-order whose id
equals the target, unwrapped by unwrapSingle, which replaces a match having
exactly one child by that child and keeps a match with zero or several
children. -/
theorem locatorFirstMatch (target : String) (forest : List ProfileNode) :
    getChildWithId target (some forest)
      = ((preorderNodes forest).find? (fun n => n.id == target)).map unwrapSingle :=
  getChildWithId_eq_find target forest

/-- C7: locating an id that occurs as no node id anywhere in the tree
returns none; the locator is a total function, so it only ever signals
absence. -/
theorem locatorMiss (target : String) (forest : List ProfileNode)
    (h : ∀ n ∈ preorderNodes forest, n.id ≠ target) :
    getChildWithId target (some forest) = none := by
  rw [getChildWithId_eq_find]
  have hf : (preorderNodes forest).find? (fun n => n.id == target) = none := by
    rw [List.find?_eq_none]
    intro n hn
    simp [h n hn]
  rw [hf]
  rfl

/-- Concrete instance of locatorMiss on a one-node forest. -/
theorem locatorMiss_witness :
    getChildWithId "zzz" (some [sampleLeafA]) = none :=
  locatorMiss "zzz" [sampleLeafA]
    (by simp [preorderNodes, sampleLeafA, ProfileNode.id])

/-- C8 as amended: the flattener and the locator are total and signal
missing data by an empty list or none, and flattening an absent or empty
top-level children list yields the empty sequence; chart data construction
succeeds exactly when the resolved node has a children field and raises
the modelled TypeError when it does not. -/
theorem coreTotality (b : String) (d : ℕ) (target : String) (node : ProfileNode) :
    parseChildren b none d = []
    ∧ parseChildren b (some []) d = []
    ∧ getChildWithId target none = none
    ∧ ((∃ slices, createChartData node = Except.ok slices)
        ↔ node.children.isSome = true) := by
  refine ⟨by simp [parseChildren], by simp [parseChildren],
    by simp [getChildWithId], ?_⟩
  cases node with
  | mk i nm pc cs =>
    cases cs with
    | none => simp [createChartData, ProfileNode.children]
    | some l => simp [createChartData, ProfileNode.children]

/-- C8 counterexample: chart data construction raises on a resolved node
without a children field, because the source reads children.length with no
guard; the error value models the thrown TypeError, so the core does not
signal this condition by a marker value. -/
theorem coreTotality_cex :
    createChartData (ProfileNode.mk "Stress" "Stress" none none)
      = Except.error "TypeError: children is undefined" := rfl

/-- C3: the emitted item carries hasChildren equal to the string true
exactly when the source node has a present children field, even a present
empty one, and equal to the string false exactly when the field is absent. -/
theorem hasChildrenPresence (b s : String) (n : ProfileNode) (lvl : ℕ) :
    ((annotateItem s (createChildFromJSON b n lvl)).hasChildren = "true"
        ↔ n.children.isSome = true)
    ∧ ((annotateItem s (createChildFromJSON b n lvl)).hasChildren = "false"
        ↔ n.children.isSome = false) := by
  cases h : n.children.isSome with
  | false => simp [annotateItem, createChildFromJSON, h]
  | true => simp [annotateItem, createChildFromJSON, h]

/-- C5: no emitted item carries depth tag 2, and every flattened item whose
tag differs from 2 survives, after annotation, into the final sequence, so
the descendants of the dropped depth-2 items remain in the output. -/
theorem depthTwoFiltering (b s : String) (t : Option (List ProfileNode)) :
    (∀ item ∈ parseDescriptionFromWatsonResponse b s t, item.type ≠ "2")
    ∧ (∀ c ∈ parseChildren b t 0, c.type ≠ "2"
        → annotateItem s c ∈ parseDescriptionFromWatsonResponse b s t) := by
  constructor
  · intro item hmem
    simp only [parseDescriptionFromWatsonResponse, List.mem_map] at hmem
    obtain ⟨c, hc, rfl⟩ := hmem
    have hpc := (List.mem_filter.mp hc).2
    have ht : c.type ≠ "2" := by simpa using hpc
    exact ht
  · intro c hc ht
    simp only [parseDescriptionFromWatsonResponse]
    exact List.mem_map_of_mem _
      (List.mem_filter_of_mem hc (by simpa using ht))

/-- Concrete instance of depthTwoFiltering: the depth-3 descendant r of the
dropped depth-2 node q of sampleTree1 remains in the final sequence. -/
theorem depthTwoFiltering_witness :
    annotateItem "sess1" sampleChildR
      ∈ parseDescriptionFromWatsonResponse "http://base" "sess1" sampleTree1 :=
  (depthTwoFiltering "http://base" "sess1" sampleTree1).2 sampleChildR
    (by simp only [sampleTree1, sampleChildR, parseChildren]; decide)
    (by decide)

/-- C6: on every emitted item, isHeader holds exactly on tag 1, isSubheader
exactly on tag 3 with the children flag true, isLeaf exactly on the
children flag false with tag 3 or 4, and the header flag excludes both of
the other two. -/
theorem classificationRules (b s : String) (t : Option (List ProfileNode))
    (item : DisplayItem)
    (hmem : item ∈ parseDescriptionFromWatsonResponse b s t) :
    (item.isHeader = true ↔ item.type = "1")
    ∧ (item.isSubheader = true ↔ (item.type = "3" ∧ item.hasChildren = "true"))
    ∧ (item.isLeaf = true
        ↔ (item.hasChildren = "false" ∧ (item.type = "3" ∨ item.type = "4")))
    ∧ ¬(item.isHeader = true ∧ item.isSubheader = true)
    ∧ ¬(item.isHeader = true ∧ item.isLeaf = true) := by
  simp only [parseDescriptionFromWatsonResponse, List.mem_map] at hmem
  obtain ⟨c, hc, rfl⟩ := hmem
  refine ⟨by simp [annotateItem, isHeader], by simp [annotateItem, isSubheader],
    by simp [annotateItem, isLeaf], ?_, ?_⟩
  · rintro ⟨ha, hb⟩
    have ha' : c.type = "1" := by simpa [annotateItem, isHeader] using ha
    have hb' : c.type = "3" ∧ c.hasChildren = "true" := by
      simpa [annotateItem, isSubheader] using hb
    exact absurd (ha'.symm.trans hb'.1) (by decide)
  · rintro ⟨ha, hb⟩
    have ha' : c.type = "1" := by simpa [annotateItem, isHeader] using ha
    have hb' : c.hasChildren = "false" ∧ (c.type = "3" ∨ c.type = "4") := by
      simpa [annotateItem, isLeaf] using hb
    rcases hb'.2 with h3 | h4
    · exact absurd (ha'.symm.trans h3) (by decide)
    · exact absurd (ha'.symm.trans h4) (by decide)

/-- Concrete instance of classificationRules on the item emitted for the
top-level leaf sampleLeafA. -/
theorem classificationRules_witness :
    (sampleItemA.isHeader = true ↔ sampleItemA.type = "1")
    ∧ (sampleItemA.isSubheader = true
        ↔ (sampleItemA.type = "3" ∧ sampleItemA.hasChildren = "true"))
    ∧ (sampleItemA.isLeaf = true
        ↔ (sampleItemA.hasChildren = "false"
            ∧ (sampleItemA.type = "3" ∨ sampleItemA.type = "4")))
    ∧ ¬(sampleItemA.isHeader = true ∧ sampleItemA.isSubheader = true)
    ∧ ¬(sampleItemA.isHeader = true ∧ sampleItemA.isLeaf = true) :=
  classificationRules "http://base" "sess1" (some [sampleLeafA]) sampleItemA
    (by simp only [parseDescriptionFromWatsonResponse, parseChildren,
          sampleLeafA, sampleItemA]; decide)

/-- C2 as amended: the emitted item has showGraph equal to the string true
and graphURL equal to the base URL, the literal getGraph segment, the id
and the separator slash-question-mark-sessionId followed by the session
id, exactly when the id is on the allow-list; otherwise showGraph is the
string false and graphURL is absent. -/
theorem graphAnnotation (b s : String) (n : ProfileNode) (lvl : ℕ) :
    (annotateItem s (createChildFromJSON b n lvl)).showGraph
        = (if n.id ∈ idsWithGraphs then "true" else "false")
    ∧ (annotateItem s (createChildFromJSON b n lvl)).graphURL
        = (if n.id ∈ idsWithGraphs
           then some (b ++ "/getGraph/" ++ n.id ++ "/?sessionId=" ++ s)
           else none) := by
  by_cases hm : n.id ∈ idsWithGraphs
  · have hne : (b ++ "/getGraph/" ++ n.id) ≠ "" := by
      intro hcontra
      have hlen := congrArg String.length hcontra
      rw [String.length_append, String.length_append] at hlen
      have h10 : ("/getGraph/" : String).length = 10 := rfl
      have h0 : ("" : String).length = 0 := rfl
      rw [h10, h0] at hlen
      omega
    simp [annotateItem, createChildFromJSON, hm, hne]
  · simp [annotateItem, createChildFromJSON, hm]

/-- C2 counterexample: for the allow-listed id Openness the emitted
graphURL uses the separator slash-question-mark before sessionId and the
showGraph field is the string true, so the graphURL equality stated by the
claim, with a bare question mark, fails at this input. -/
theorem graphAnnotation_cex :
    (annotateItem "sess1" (createChildFromJSON "http://base" sampleOpenNode 0)).graphURL
      = some "http://base/getGraph/Openness/?sessionId=sess1"
    ∧ (annotateItem "sess1" (createChildFromJSON "http://base" sampleOpenNode 0)).showGraph
      = "true"
    ∧ (annotateItem "sess1" (createChildFromJSON "http://base" sampleOpenNode 0)).graphURL
      ≠ some ("http://base" ++ "/getGraph/" ++ "Openness" ++ "?sessionId=" ++ "sess1") := by
  refine ⟨by decide, by decide, by decide⟩

/-- C1 as amended: a node carrying a nonzero percentage p of the unit
interval is emitted with value equal to p times 100 rounded to exactly two
decimal digits and suffixed with a percent sign, and a node with an absent
percentage is emitted with an absent value. -/
theorem percentFormatting (b s : String) (lvl : ℕ) (n : ProfileNode) (p : ℚ)
    (hp : n.percentage = some p) (h0 : 0 < p) (_h1 : p ≤ 1) :
    (annotateItem s (createChildFromJSON b n lvl)).value = some (specPercentValue p)
    ∧ ∀ m : ProfileNode, m.percentage = none
        → (annotateItem s (createChildFromJSON b m lvl)).value = none := by
  constructor
  · have hval : (annotateItem s (createChildFromJSON b n lvl)).value
        = formatPercentage n.percentage := rfl
    rw [hval, hp]
    have hne : p ≠ 0 := ne_of_gt h0
    simp only [formatPercentage, if_neg hne]
    have harg : p * 100 * 100 + 1 / 2 = p * 10000 + 1 / 2 := by ring
    simp only [toFixed2, specPercentValue, harg]
  · intro m hm
    have hval : (annotateItem s (createChildFromJSON b m lvl)).value
        = formatPercentage m.percentage := rfl
    rw [hval, hm]
    rfl

/-- Concrete instance of percentFormatting at percentage 4212 over 10000,
the spec example of 42.12 percent. -/
theorem percentFormatting_witness :
    (annotateItem "sess1" (createChildFromJSON "http://base"
        (ProfileNode.mk "x" "X" (some (4212 / 10000)) none) 0)).value
      = some (specPercentValue (4212 / 10000))
    ∧ ∀ m : ProfileNode, m.percentage = none
        → (annotateItem "sess1" (createChildFromJSON "http://base" m 0)).value = none :=
  percentFormatting "http://base" "sess1" 0
    (ProfileNode.mk "x" "X" (some (4212 / 10000)) none) (4212 / 10000)
    rfl (by norm_num) (by norm_num)

/-- C1 counterexample: a node carrying the numeric percentage 0, which lies
in the unit interval, is emitted with an absent value because the JS
truthiness guard rejects the number 0, not with the string the claim
requires for every numeric percentage. -/
theorem percentFormatting_zero_cex :
    formatPercentage (some 0) = none
    ∧ specPercentValue 0 = "0.00%"
    ∧ formatPercentage (some 0) ≠ some (specPercentValue 0) := by
  have h : ⌊(0 : ℚ) * 10000 + 1 / 2⌋ = 0 := by norm_num
  refine ⟨rfl, ?_, ?_⟩
  · simp only [specPercentValue, h, hundredthsToString, pad2]
    decide
  · intro hcontra
    rw [show formatPercentage (some 0) = none from rfl] at hcontra
    exact Option.noConfusion hcontra

/-- The rounding pipeline reproduces the two spec examples. -/
theorem specPercentValue_examples :
    specPercentValue (4212 / 10000) = "42.12%" ∧ specPercentValue 1 = "100.00%" := by
  constructor
  · have h : ⌊(4212 / 10000 : ℚ) * 10000 + 1 / 2⌋ = 4212 := by norm_num
    simp only [specPercentValue, h, hundredthsToString, pad2]
    decide
  · have h : ⌊(1 : ℚ) * 10000 + 1 / 2⌋ = 10000 := by norm_num
    simp only [specPercentValue, h, hundredthsToString, pad2]
    decide

/-- C10: slice i of the chart data takes its color and highlight from the
fixed six-entry palettes at index i modulo six, and the slice six
positions later repeats both. -/
theorem paletteCycling (node : ProfileNode) (cs : List ProfileNode)
    (h : node.children = some cs) (i : ℕ) (hi : i < cs.length) :
    ∃ slices, createChartData node = Except.ok slices
      ∧ slices.length = cs.length
      ∧ (slices.getD i defaultSlice).color = colors.getD (i % 6) ""
      ∧ (slices.getD i defaultSlice).highlight = highlights.getD (i % 6) ""
      ∧ (i + 6 < cs.length →
          (slices.getD (i + 6) defaultSlice).color
              = (slices.getD i defaultSlice).color
          ∧ (slices.getD (i + 6) defaultSlice).highlight
              = (slices.getD i defaultSlice).highlight) := by
  refine ⟨chartSlicesFrom cs 0, ?_, chartSlicesFrom_length cs 0, ?_, ?_, ?_⟩
  · simp only [createChartData, h]
  · rw [chartSlicesFrom_getD cs 0 i hi]
    simp [chartSliceAt, colors]
  · rw [chartSlicesFrom_getD cs 0 i hi]
    simp [chartSliceAt, highlights]
  · intro h6
    rw [chartSlicesFrom_getD cs 0 (i + 6) h6, chartSlicesFrom_getD cs 0 i hi]
    constructor
    · simp [chartSliceAt, colors, Nat.add_mod_right]
    · simp [chartSliceAt, highlights, Nat.add_mod_right]

/-- Concrete instance of paletteCycling: with eight slices, slice six
repeats the color and highlight of slice zero. -/
theorem paletteCycling_witness :
    ∃ slices, createChartData sampleChartNode = Except.ok slices
      ∧ slices.length = sampleChartChildren.length
      ∧ (slices.getD 0 defaultSlice).color = colors.getD (0 % 6) ""
      ∧ (slices.getD 0 defaultSlice).highlight = highlights.getD (0 % 6) ""
      ∧ (0 + 6 < sampleChartChildren.length →
          (slices.getD (0 + 6) defaultSlice).color
              = (slices.getD 0 defaultSlice).color
          ∧ (slices.getD (0 + 6) defaultSlice).highlight
              = (slices.getD 0 defaultSlice).highlight) :=
  paletteCycling sampleChartNode sampleChartChildren rfl 0 (by decide)

end Watson
